import Mathlib

/-
  A shallow embedding of the Monkey interpreter (lexer, Pratt parser,
  tree-walking evaluator) together with proofs about its behaviour.

  Conventions of the embedding:
  * Rust `i64` values are modelled as `Int` (no claim below depends on
    64-bit wrap-around); division and remainder by zero, which panic in
    Rust, are modelled as an explicit `panic` outcome.
  * `Rc<RefCell<Environment>>` is modelled as an index (`Nat`) into an
    explicit heap (`List Environment`) that is threaded through
    evaluation; `Rc::clone` is sharing of the index, `borrow_mut` is an
    in-place update of the heap cell.
  * `HashMap<String, _>` is modelled as an association list whose
    `insert` replaces an existing key in place (key sets stay unique,
    which is all `get`/`insert` can observe).
  * Loops in the Rust source become fuel-indexed recursion.  Every
    partial outcome is explicit: `ok`, `panic` (an `unwrap`/index/zero
    division panic in the source) or `fuelOut` (the fuel budget of the
    embedding ran out; an actual infinite loop in the source shows up as
    `fuelOut` for every fuel).
  * `char::is_alphabetic`/`is_whitespace` (Unicode classes in Rust) are
    modelled by their ASCII restrictions `Char.isAlpha`/`Char.isWhitespace`;
    every input considered below is ASCII.
-/

namespace Monkey

/-! ### Tokens (src/token/src/lib.rs) -/

inductive TokenType where
  | ILLEGAL | EOF
  | IDENT | INT | STRING
  | ASSIGN | PLUS | MINUS | ASTERISK | SLASH | BANG | MODULO
  | LT | RT
  | EQ | NOT_EQ
  | COMMA | SEMICOLON
  | LPAREN | RPAREN | LBRACE | RBRACE
  | DOUBLE_QUOTE
  | FUNCTION | LET | TRUE | FALSE | RETURN
  | IF | ELSE
  deriving DecidableEq, Repr

/-- The `Debug`/`Display` rendering of a `TokenType` (the constructor name),
used by the parser both for error messages and for token comparisons. -/
def ttStr : TokenType → String
  | .ILLEGAL => "ILLEGAL" | .EOF => "EOF"
  | .IDENT => "IDENT" | .INT => "INT" | .STRING => "STRING"
  | .ASSIGN => "ASSIGN" | .PLUS => "PLUS" | .MINUS => "MINUS"
  | .ASTERISK => "ASTERISK" | .SLASH => "SLASH" | .BANG => "BANG"
  | .MODULO => "MODULO"
  | .LT => "LT" | .RT => "RT"
  | .EQ => "EQ" | .NOT_EQ => "NOT_EQ"
  | .COMMA => "COMMA" | .SEMICOLON => "SEMICOLON"
  | .LPAREN => "LPAREN" | .RPAREN => "RPAREN"
  | .LBRACE => "LBRACE" | .RBRACE => "RBRACE"
  | .DOUBLE_QUOTE => "DOUBLE_QUOTE"
  | .FUNCTION => "FUNCTION" | .LET => "LET" | .TRUE => "TRUE"
  | .FALSE => "FALSE" | .RETURN => "RETURN"
  | .IF => "IF" | .ELSE => "ELSE"

structure Token where
  tokenType : TokenType
  literal : String
  deriving DecidableEq, Repr

def lookupIdent (ident : String) : TokenType :=
  if ident = "fn" then .FUNCTION
  else if ident = "let" then .LET
  else if ident = "true" then .TRUE
  else if ident = "false" then .FALSE
  else if ident = "return" then .RETURN
  else if ident = "if" then .IF
  else if ident = "else" then .ELSE
  else .IDENT

/-! ### Lexer (src/lexer/src/lib.rs)

`input.chars().nth(i)` is character indexing, so the input is kept as a
`List Char`. -/

structure Lexer where
  input : List Char
  position : Nat
  readPosition : Nat
  ch : Char
  deriving DecidableEq, Repr

namespace Lexer

def readChar (l : Lexer) : Lexer :=
  let c := if l.readPosition ≥ l.input.length then '\x00'
           else l.input.getD l.readPosition '\x00'
  { l with ch := c, position := l.readPosition, readPosition := l.readPosition + 1 }

def new (input : String) : Lexer :=
  readChar { input := input.data, position := 0, readPosition := 0, ch := '\x00' }

def peekChar (l : Lexer) : Char :=
  if l.readPosition ≥ l.input.length then '\x00'
  else l.input.getD l.readPosition '\x00'

def skipWhitespace (fuel : Nat) (l : Lexer) : Option Lexer :=
  match fuel with
  | 0 => none
  | fuel + 1 =>
    if l.ch.isWhitespace || l.ch = '\n' then skipWhitespace fuel (readChar l)
    else some l

/-- `self.read_position = self.position; self.position -= 1;` (the `-= 1`
can only be reached with `position ≥ 1`, so `Nat` subtraction is exact). -/
def revertChar (l : Lexer) : Lexer :=
  { l with readPosition := l.position, position := l.position - 1 }

def readIdentifierGo (fuel : Nat) (acc : List Char) (l : Lexer) :
    Option (List Char × Lexer) :=
  match fuel with
  | 0 => none
  | fuel + 1 =>
    if l.ch.isAlpha then readIdentifierGo fuel (acc ++ [l.ch]) (readChar l)
    else some (acc, l)

def readIdentifier (fuel : Nat) (l : Lexer) : Option (Token × Lexer) :=
  match readIdentifierGo fuel [] l with
  | none => none
  | some (ident, l') => some (⟨.IDENT, ⟨ident⟩⟩, revertChar l')

def readNumberGo (fuel : Nat) (acc : List Char) (l : Lexer) :
    Option (List Char × Lexer) :=
  match fuel with
  | 0 => none
  | fuel + 1 =>
    if l.ch.isDigit then readNumberGo fuel (acc ++ [l.ch]) (readChar l)
    else some (acc, l)

def readNumber (fuel : Nat) (l : Lexer) : Option (Token × Lexer) :=
  match readNumberGo fuel [] l with
  | none => none
  | some (number, l') => some (⟨.INT, ⟨number⟩⟩, revertChar l')

/-- The body of `read_string`: `while self.ch != '"' { push; read_char }`.
There is no end-of-input check, which is what claim C4 is about. -/
def readStringGo (fuel : Nat) (acc : List Char) (l : Lexer) :
    Option (List Char × Lexer) :=
  match fuel with
  | 0 => none
  | fuel + 1 =>
    if l.ch = '"' then some (acc, l)
    else readStringGo fuel (acc ++ [l.ch]) (readChar l)

def readString (fuel : Nat) (l : Lexer) : Option (Token × Lexer) :=
  match readStringGo fuel [] (readChar l) with
  | none => none
  | some (s, l') => some (⟨.STRING, ⟨s⟩⟩, l')

def nextToken (fuel : Nat) (l : Lexer) : Option (Token × Lexer) :=
  match skipWhitespace fuel l with
  | none => none
  | some l =>
    if l.ch = ';' then some (⟨.SEMICOLON, l.ch.toString⟩, readChar l)
    else if l.ch = '=' then
      if peekChar l = '=' then some (⟨.EQ, "=="⟩, readChar (readChar l))
      else some (⟨.ASSIGN, l.ch.toString⟩, readChar l)
    else if l.ch = '+' then some (⟨.PLUS, l.ch.toString⟩, readChar l)
    else if l.ch = '-' then some (⟨.MINUS, l.ch.toString⟩, readChar l)
    else if l.ch = '*' then some (⟨.ASTERISK, l.ch.toString⟩, readChar l)
    else if l.ch = '/' then some (⟨.SLASH, l.ch.toString⟩, readChar l)
    else if l.ch = '<' then some (⟨.LT, l.ch.toString⟩, readChar l)
    else if l.ch = '>' then some (⟨.RT, l.ch.toString⟩, readChar l)
    else if l.ch = '!' then
      if peekChar l = '=' then some (⟨.NOT_EQ, "!="⟩, readChar (readChar l))
      else some (⟨.BANG, l.ch.toString⟩, readChar l)
    else if l.ch = '(' then some (⟨.LPAREN, l.ch.toString⟩, readChar l)
    else if l.ch = ')' then some (⟨.RPAREN, l.ch.toString⟩, readChar l)
    else if l.ch = '{' then some (⟨.LBRACE, l.ch.toString⟩, readChar l)
    else if l.ch = '}' then some (⟨.RBRACE, l.ch.toString⟩, readChar l)
    else if l.ch = ',' then some (⟨.COMMA, l.ch.toString⟩, readChar l)
    else if l.ch = '%' then some (⟨.MODULO, l.ch.toString⟩, readChar l)
    else if l.ch = '\x00' then some (⟨.EOF, l.ch.toString⟩, readChar l)
    else if l.ch.isAlpha then
      match readIdentifier fuel l with
      | none => none
      | some (tok, l') =>
        let tok :=
          if ttStr (lookupIdent tok.literal) ≠ ttStr .IDENT then
            { tok with tokenType := lookupIdent tok.literal }
          else tok
        some (tok, readChar l')
    else if l.ch.isDigit then
      match readNumber fuel l with
      | none => none
      | some (tok, l') => some (tok, readChar l')
    else if l.ch = '"' then
      match readString fuel l with
      | none => none
      | some (tok, l') => some (tok, readChar l')
    else some (⟨.ILLEGAL, l.ch.toString⟩, readChar l)

end Lexer

/-! ### AST (src/ast/src/lib.rs)

Every node keeps the token the Rust structs carry, since `to_string`
renders several nodes from the token's literal rather than from the
parsed value.  `Rc<dyn Statement>` fields (if-consequence/alternative,
function body) are plain `Stmt`; the evaluator's downcasts to
`BlockStatement` become matches that panic on any other constructor. -/

structure Ident where
  token : Token
  value : String
  deriving Repr

mutual
inductive Expr where
  | identifier (token : Token) (value : String)
  | integerLiteral (token : Token) (value : Int)
  | stringLiteral (token : Token) (value : String)
  | boolean (token : Token) (value : Bool)
  | prefixExpr (token : Token) (operator : String) (right : Expr)
  | infixExpr (token : Token) (left : Expr) (operator : String) (right : Expr)
  | ifExpr (token : Token) (condition : Expr) (consequence : Stmt)
      (alternative : Option Stmt)
  | functionLiteral (token : Token) (parameters : List Ident) (body : Stmt)
  | callExpr (token : Token) (function : Expr) (arguments : List Expr)
  deriving Repr

inductive Stmt where
  | letStmt (token : Token) (name : Ident) (value : Option Expr)
  | returnStmt (token : Token) (returnValue : Option Expr)
  | exprStmt (token : Token) (expression : Option Expr)
  | blockStmt (token : Token) (statements : List Stmt)
  deriving Repr
end

structure Program where
  statements : List Stmt
  deriving Repr

/-- `FunctionLiteral::to_string`'s and `CallExpression::to_string`'s
comma-joining loop (`", "` after every element but the last). -/
def joinComma : List String → String
  | [] => ""
  | [s] => s
  | s :: rest => s ++ ", " ++ joinComma rest

mutual
def exprToString : Expr → String
  | .identifier _ value => value
  | .integerLiteral token _ => token.literal
  | .stringLiteral token _ => "\"" ++ token.literal ++ "\""
  | .boolean token _ => token.literal
  | .prefixExpr _ operator right =>
    "(" ++ operator ++ exprToString right ++ ")"
  | .infixExpr _ left operator right =>
    "(" ++ exprToString left ++ " " ++ operator ++ " " ++ exprToString right ++ ")"
  | .ifExpr _ condition consequence alternative =>
    "if" ++ exprToString condition ++ " " ++ stmtToString consequence ++
      (match alternative with
       | some alt => " else " ++ stmtToString alt
       | none => "")
  | .functionLiteral token parameters body =>
    token.literal ++ "(" ++ joinComma (parameters.map (fun p => p.value)) ++
      ") " ++ stmtToString body
  | .callExpr _ function arguments =>
    exprToString function ++ "(" ++ joinComma (exprListToString arguments) ++ ")"

def exprListToString : List Expr → List String
  | [] => []
  | e :: rest => exprToString e :: exprListToString rest

def stmtToString : Stmt → String
  | .letStmt token name value =>
    token.literal ++ " " ++ name.value ++ " = " ++
      (match value with | some e => exprToString e | none => "") ++ ";"
  | .returnStmt token returnValue =>
    token.literal ++ " " ++
      (match returnValue with | some e => exprToString e | none => "") ++ ";"
  | .exprStmt _ expression =>
    match expression with | some e => exprToString e | none => ""
  | .blockStmt _ statements =>
    "\x7b" ++ String.join (stmtListToString statements) ++ "\x7d"

def stmtListToString : List Stmt → List String
  | [] => []
  | s :: rest => stmtToString s :: stmtListToString rest
end

def programToString (p : Program) : String :=
  String.join (stmtListToString p.statements)

/-! ### Parser (src/parser/src/lib.rs) -/

inductive Precedence where
  | LOWEST | EQUALS | LESSGREATER | SUM | PRODUCT | PREFIXOP | CALL
  deriving DecidableEq, Repr

/-- The discriminant order used by the derived `PartialOrd` (`LOWEST = 1`). -/
def Precedence.toNat : Precedence → Nat
  | .LOWEST => 1 | .EQUALS => 2 | .LESSGREATER => 3 | .SUM => 4
  | .PRODUCT => 5 | .PREFIXOP => 6 | .CALL => 7

def getPrecedence : TokenType → Precedence
  | .EQ => .EQUALS
  | .NOT_EQ => .EQUALS
  | .LT => .LESSGREATER
  | .RT => .LESSGREATER
  | .PLUS => .SUM
  | .MINUS => .SUM
  | .SLASH => .PRODUCT
  | .ASTERISK => .PRODUCT
  | .LPAREN => .CALL
  | .MODULO => .PRODUCT
  | _ => .LOWEST

/-- The token kinds registered in `prefix_parse_fns`. -/
def hasPrefixFn : TokenType → Bool
  | .IDENT | .INT | .STRING | .TRUE | .FALSE
  | .BANG | .MINUS | .LPAREN | .IF | .FUNCTION => true
  | _ => false

/-- The token kinds registered in `infix_parse_fns`. -/
def hasInfixFn : TokenType → Bool
  | .PLUS | .MINUS | .SLASH | .ASTERISK | .LT | .RT
  | .EQ | .NOT_EQ | .LPAREN | .MODULO | .STRING => true
  | _ => false

structure ParserState where
  lexer : Lexer
  currentToken : Token
  peekToken : Token
  errors : List String
  deriving Repr

/-- Outcome of a parsing step: a result with the updated parser state, a
Rust panic (an `unwrap` of `None`), or exhaustion of the embedding's fuel. -/
inductive PRes (α : Type) where
  | ok (a : α) (p : ParserState)
  | panic
  | fuelOut
  deriving Repr

namespace ParserState

def currentTokenIs (p : ParserState) (tt : TokenType) : Bool :=
  ttStr p.currentToken.tokenType == ttStr tt

def peekTokenIs (p : ParserState) (tt : TokenType) : Bool :=
  ttStr p.peekToken.tokenType == ttStr tt

def addPeekError (p : ParserState) (tt : TokenType) : ParserState :=
  { p with errors := p.errors ++
      ["expected next token to be " ++ ttStr tt ++ ", got " ++
        ttStr p.peekToken.tokenType ++ " instead"] }

def noPrefixParseFnError (p : ParserState) (tt : TokenType) : ParserState :=
  { p with errors := p.errors ++
      ["no prefix parse function for " ++ ttStr tt ++ " found"] }

/-- `Parser::next_token`; `none` means the lexer exhausted its fuel. -/
def advance (fuel : Nat) (p : ParserState) : Option ParserState :=
  match Lexer.nextToken fuel p.lexer with
  | none => none
  | some (t, l) =>
    some { p with currentToken := p.peekToken, peekToken := t, lexer := l }

def expectPeek (fuel : Nat) (tt : TokenType) (p : ParserState) :
    Option (Bool × ParserState) :=
  if p.peekTokenIs tt then
    match p.advance fuel with
    | none => none
    | some p' => some (true, p')
  else some (false, p.addPeekError tt)

end ParserState

/-- `literal.parse::<i64>()` for the lexer's `INT` literals (a run of
decimal digits): fails exactly when the value exceeds `i64::MAX`. -/
def parseI64 (s : String) : Option Int :=
  if s.data ≠ [] ∧ s.data.all Char.isDigit then
    let n := s.data.foldl (fun n c => n * 10 + (c.toNat - 48)) 0
    if n ≤ 9223372036854775807 then some (Int.ofNat n) else none
  else none

def parseIdentifier (p : ParserState) : Option Expr × ParserState :=
  (some (.identifier p.currentToken p.currentToken.literal), p)

def parseIntegerLiteral (p : ParserState) : Option Expr × ParserState :=
  match parseI64 p.currentToken.literal with
  | none =>
    (none, { p with errors := p.errors ++
        ["could not parse " ++ p.currentToken.literal ++ " as integer"] })
  | some v => (some (.integerLiteral p.currentToken v), p)

def parseStringLiteral (p : ParserState) : Option Expr × ParserState :=
  (some (.stringLiteral p.currentToken p.currentToken.literal), p)

def parseBoolean (p : ParserState) : Option Expr × ParserState :=
  (some (.boolean p.currentToken (p.currentTokenIs .TRUE)), p)

mutual

def parseStatement (fuel : Nat) (p : ParserState) : PRes (Option Stmt) :=
  match fuel with
  | 0 => .fuelOut
  | fuel + 1 =>
    match p.currentToken.tokenType with
    | .LET => parseLetStatement fuel p
    | .RETURN => parseReturnStatement fuel p
    | .LBRACE => parseBlockStatement fuel p
    | _ => parseExpressionStatement fuel p

def parseExpressionStatement (fuel : Nat) (p : ParserState) : PRes (Option Stmt) :=
  match fuel with
  | 0 => .fuelOut
  | fuel + 1 =>
    let token := p.currentToken
    match parseExpression fuel .LOWEST p with
    | .panic => .panic
    | .fuelOut => .fuelOut
    | .ok expression p =>
      if p.peekTokenIs .SEMICOLON then
        match p.advance fuel with
        | none => .fuelOut
        | some p => .ok (some (.exprStmt token expression)) p
      else .ok (some (.exprStmt token expression)) p

def parseLetStatement (fuel : Nat) (p : ParserState) : PRes (Option Stmt) :=
  match fuel with
  | 0 => .fuelOut
  | fuel + 1 =>
    let token := p.currentToken
    match p.expectPeek fuel .IDENT with
    | none => .fuelOut
    | some (false, p) => .ok none p
    | some (true, p) =>
      let name : Ident := ⟨p.currentToken, p.currentToken.literal⟩
      match p.expectPeek fuel .ASSIGN with
      | none => .fuelOut
      | some (false, p) => .ok none p
      | some (true, p) =>
        match p.advance fuel with
        | none => .fuelOut
        | some p =>
          match parseExpression fuel .LOWEST p with
          | .panic => .panic
          | .fuelOut => .fuelOut
          | .ok value p =>
            if p.peekTokenIs .SEMICOLON then
              match p.advance fuel with
              | none => .fuelOut
              | some p => .ok (some (.letStmt token name value)) p
            else .ok (some (.letStmt token name value)) p

def parseReturnStatement (fuel : Nat) (p : ParserState) : PRes (Option Stmt) :=
  match fuel with
  | 0 => .fuelOut
  | fuel + 1 =>
    let token := p.currentToken
    match p.advance fuel with
    | none => .fuelOut
    | some p =>
      match parseExpression fuel .LOWEST p with
      | .panic => .panic
      | .fuelOut => .fuelOut
      | .ok returnValue p =>
        if p.peekTokenIs .SEMICOLON then
          match p.advance fuel with
          | none => .fuelOut
          | some p => .ok (some (.returnStmt token returnValue)) p
        else .ok (some (.returnStmt token returnValue)) p

def parseBlockStatement (fuel : Nat) (p : ParserState) : PRes (Option Stmt) :=
  match fuel with
  | 0 => .fuelOut
  | fuel + 1 =>
    let token := p.currentToken
    match p.advance fuel with
    | none => .fuelOut
    | some p => parseBlockGo fuel token [] p

def parseBlockGo (fuel : Nat) (token : Token) (acc : List Stmt)
    (p : ParserState) : PRes (Option Stmt) :=
  match fuel with
  | 0 => .fuelOut
  | fuel + 1 =>
    if !p.currentTokenIs .RBRACE && !p.currentTokenIs .EOF then
      match parseStatement fuel p with
      | .panic => .panic
      | .fuelOut => .fuelOut
      | .ok stmt p =>
        let acc := match stmt with | some s => acc ++ [s] | none => acc
        match p.advance fuel with
        | none => .fuelOut
        | some p => parseBlockGo fuel token acc p
    else .ok (some (.blockStmt token acc)) p

def parseExpression (fuel : Nat) (precedence : Precedence) (p : ParserState) :
    PRes (Option Expr) :=
  match fuel with
  | 0 => .fuelOut
  | fuel + 1 =>
    let ctt := p.currentToken.tokenType
    if hasPrefixFn ctt then
      match callPrefixFn fuel ctt p with
      | .panic => .panic
      | .fuelOut => .fuelOut
      | .ok leftExp p => parseExprLoop fuel precedence leftExp p
    else .ok none (p.noPrefixParseFnError ctt)

def parseExprLoop (fuel : Nat) (precedence : Precedence) (leftExp : Option Expr)
    (p : ParserState) : PRes (Option Expr) :=
  match fuel with
  | 0 => .fuelOut
  | fuel + 1 =>
    if !p.peekTokenIs .SEMICOLON &&
        decide (precedence.toNat < (getPrecedence p.peekToken.tokenType).toNat) then
      let ptt := p.peekToken.tokenType
      if hasInfixFn ptt then
        match p.advance fuel with
        | none => .fuelOut
        | some p =>
          match leftExp with
          | none => .panic
          | some left =>
            match callInfixFn fuel ptt left p with
            | .panic => .panic
            | .fuelOut => .fuelOut
            | .ok leftExp p => parseExprLoop fuel precedence leftExp p
      else .ok leftExp p
    else .ok leftExp p

def callPrefixFn (fuel : Nat) (tt : TokenType) (p : ParserState) :
    PRes (Option Expr) :=
  match fuel with
  | 0 => .fuelOut
  | fuel + 1 =>
    match tt with
    | .IDENT => let (e, p) := parseIdentifier p; .ok e p
    | .INT => let (e, p) := parseIntegerLiteral p; .ok e p
    | .STRING => let (e, p) := parseStringLiteral p; .ok e p
    | .TRUE => let (e, p) := parseBoolean p; .ok e p
    | .FALSE => let (e, p) := parseBoolean p; .ok e p
    | .BANG => parsePrefixExpression fuel p
    | .MINUS => parsePrefixExpression fuel p
    | .LPAREN => parseGroupedExpression fuel p
    | .IF => parseIfExpression fuel p
    | .FUNCTION => parseFunctionLiteral fuel p
    | _ => .ok none p

def callInfixFn (fuel : Nat) (tt : TokenType) (left : Expr) (p : ParserState) :
    PRes (Option Expr) :=
  match fuel with
  | 0 => .fuelOut
  | fuel + 1 =>
    match tt with
    | .LPAREN => parseCallExpression fuel left p
    | _ => parseInfixExpression fuel left p

def parsePrefixExpression (fuel : Nat) (p : ParserState) : PRes (Option Expr) :=
  match fuel with
  | 0 => .fuelOut
  | fuel + 1 =>
    let operator := p.currentToken.literal
    match p.advance fuel with
    | none => .fuelOut
    | some p =>
      match parseExpression fuel .PREFIXOP p with
      | .panic => .panic
      | .fuelOut => .fuelOut
      | .ok none _ => .panic
      | .ok (some right) p =>
        .ok (some (.prefixExpr p.currentToken operator right)) p

def parseInfixExpression (fuel : Nat) (left : Expr) (p : ParserState) :
    PRes (Option Expr) :=
  match fuel with
  | 0 => .fuelOut
  | fuel + 1 =>
    let operator := p.currentToken.literal
    let token := p.currentToken
    let precedence := getPrecedence p.currentToken.tokenType
    match p.advance fuel with
    | none => .fuelOut
    | some p =>
      match parseExpression fuel precedence p with
      | .panic => .panic
      | .fuelOut => .fuelOut
      | .ok none _ => .panic
      | .ok (some right) p =>
        .ok (some (.infixExpr token left operator right)) p

def parseGroupedExpression (fuel : Nat) (p : ParserState) : PRes (Option Expr) :=
  match fuel with
  | 0 => .fuelOut
  | fuel + 1 =>
    match p.advance fuel with
    | none => .fuelOut
    | some p =>
      match parseExpression fuel .LOWEST p with
      | .panic => .panic
      | .fuelOut => .fuelOut
      | .ok exp p =>
        match p.expectPeek fuel .RPAREN with
        | none => .fuelOut
        | some (false, p) => .ok none p
        | some (true, p) => .ok exp p

def parseIfExpression (fuel : Nat) (p : ParserState) : PRes (Option Expr) :=
  match fuel with
  | 0 => .fuelOut
  | fuel + 1 =>
    let token := p.currentToken
    match p.expectPeek fuel .LPAREN with
    | none => .fuelOut
    | some (false, p) => .ok none p
    | some (true, p) =>
      match p.advance fuel with
      | none => .fuelOut
      | some p =>
        match parseExpression fuel .LOWEST p with
        | .panic => .panic
        | .fuelOut => .fuelOut
        | .ok none _ => .panic
        | .ok (some condition) p =>
          match p.expectPeek fuel .RPAREN with
          | none => .fuelOut
          | some (false, p) => .ok none p
          | some (true, p) =>
            match p.expectPeek fuel .LBRACE with
            | none => .fuelOut
            | some (false, p) => .ok none p
            | some (true, p) =>
              match parseBlockStatement fuel p with
              | .panic => .panic
              | .fuelOut => .fuelOut
              | .ok none p => .ok none p
              | .ok (some consequence) p =>
                if p.peekTokenIs .ELSE then
                  match p.advance fuel with
                  | none => .fuelOut
                  | some p =>
                    match p.expectPeek fuel .LBRACE with
                    | none => .fuelOut
                    | some (false, p) => .ok none p
                    | some (true, p) =>
                      match parseBlockStatement fuel p with
                      | .panic => .panic
                      | .fuelOut => .fuelOut
                      | .ok none p => .ok none p
                      | .ok (some alternative) p =>
                        .ok (some (.ifExpr token condition consequence
                          (some alternative))) p
                else .ok (some (.ifExpr token condition consequence none)) p

def parseFunctionLiteral (fuel : Nat) (p : ParserState) : PRes (Option Expr) :=
  match fuel with
  | 0 => .fuelOut
  | fuel + 1 =>
    let token := p.currentToken
    match p.expectPeek fuel .LPAREN with
    | none => .fuelOut
    | some (false, p) => .ok none p
    | some (true, p) =>
      match parseFunctionParameters fuel p with
      | .panic => .panic
      | .fuelOut => .fuelOut
      | .ok parameters p =>
        match p.expectPeek fuel .LBRACE with
        | none => .fuelOut
        | some (false, p) => .ok none p
        | some (true, p) =>
          match parseBlockStatement fuel p with
          | .panic => .panic
          | .fuelOut => .fuelOut
          | .ok none p => .ok none p
          | .ok (some body) p =>
            .ok (some (.functionLiteral token parameters body)) p

def parseFunctionParameters (fuel : Nat) (p : ParserState) : PRes (List Ident) :=
  match fuel with
  | 0 => .fuelOut
  | fuel + 1 =>
    if p.peekTokenIs .RPAREN then
      match p.advance fuel with
      | none => .fuelOut
      | some p => .ok [] p
    else
      match p.advance fuel with
      | none => .fuelOut
      | some p =>
        let ident : Ident := ⟨p.currentToken, p.currentToken.literal⟩
        parseFuncParamsGo fuel [ident] p

def parseFuncParamsGo (fuel : Nat) (acc : List Ident) (p : ParserState) :
    PRes (List Ident) :=
  match fuel with
  | 0 => .fuelOut
  | fuel + 1 =>
    if p.peekTokenIs .COMMA then
      match p.advance fuel with
      | none => .fuelOut
      | some p =>
        match p.advance fuel with
        | none => .fuelOut
        | some p =>
          let ident : Ident := ⟨p.currentToken, p.currentToken.literal⟩
          parseFuncParamsGo fuel (acc ++ [ident]) p
    else
      match p.expectPeek fuel .RPAREN with
      | none => .fuelOut
      | some (false, p) => .ok [] p
      | some (true, p) => .ok acc p

def parseCallExpression (fuel : Nat) (function : Expr) (p : ParserState) :
    PRes (Option Expr) :=
  match fuel with
  | 0 => .fuelOut
  | fuel + 1 =>
    let token := p.currentToken
    match parseCallArguments fuel p with
    | .panic => .panic
    | .fuelOut => .fuelOut
    | .ok arguments p => .ok (some (.callExpr token function arguments)) p

def parseCallArguments (fuel : Nat) (p : ParserState) : PRes (List Expr) :=
  match fuel with
  | 0 => .fuelOut
  | fuel + 1 =>
    if p.peekTokenIs .RPAREN then
      match p.advance fuel with
      | none => .fuelOut
      | some p => .ok [] p
    else
      match p.advance fuel with
      | none => .fuelOut
      | some p =>
        match parseExpression fuel .LOWEST p with
        | .panic => .panic
        | .fuelOut => .fuelOut
        | .ok none _ => .panic
        | .ok (some arg) p => parseCallArgsGo fuel [arg] p

def parseCallArgsGo (fuel : Nat) (acc : List Expr) (p : ParserState) :
    PRes (List Expr) :=
  match fuel with
  | 0 => .fuelOut
  | fuel + 1 =>
    if p.peekTokenIs .COMMA then
      match p.advance fuel with
      | none => .fuelOut
      | some p =>
        match p.advance fuel with
        | none => .fuelOut
        | some p =>
          match parseExpression fuel .LOWEST p with
          | .panic => .panic
          | .fuelOut => .fuelOut
          | .ok none _ => .panic
          | .ok (some arg) p => parseCallArgsGo fuel (acc ++ [arg]) p
    else
      match p.expectPeek fuel .RPAREN with
      | none => .fuelOut
      | some (false, p) => .ok [] p
      | some (true, p) => .ok acc p

end

def parseProgramGo (fuel : Nat) (acc : List Stmt) (p : ParserState) :
    PRes Program :=
  match fuel with
  | 0 => .fuelOut
  | fuel + 1 =>
    if ttStr p.currentToken.tokenType ≠ "EOF" then
      match parseStatement fuel p with
      | .panic => .panic
      | .fuelOut => .fuelOut
      | .ok stmt p =>
        let acc := match stmt with | some s => acc ++ [s] | none => acc
        match p.advance fuel with
        | none => .fuelOut
        | some p => parseProgramGo fuel acc p
    else .ok ⟨acc⟩ p

def parseProgram (fuel : Nat) (p : ParserState) : PRes Program :=
  parseProgramGo fuel [] p

/-- `Parser::new`: prime `current_token` and `peek_token` from the lexer. -/
def newParser (fuel : Nat) (l : Lexer) : Option ParserState :=
  match Lexer.nextToken fuel l with
  | none => none
  | some (cur, l) =>
    match Lexer.nextToken fuel l with
    | none => none
    | some (peek, l) => some ⟨l, cur, peek, []⟩

/-- Lex and parse a source string. -/
def parseSource (fuel : Nat) (src : String) : PRes Program :=
  match newParser fuel (Lexer.new src) with
  | none => .fuelOut
  | some p => parseProgram fuel p

/-! ### Objects and environments (src/object/src/lib.rs)

`Rc<RefCell<Environment>>` becomes an index into a heap of environments;
`Rc<dyn Object>` values are immutable, so `Object` is a plain inductive
(a `Function` stores the heap index of its captured environment). -/

inductive ObjectType where
  | INTEGER | BOOLEAN | NULL | ERROR | RETURN_VALUE | FUNCTION
  | IDENTIFIER | STRING
  deriving DecidableEq, Repr

/-- The `{:?}` rendering of an `ObjectType`, used in error messages. -/
def otStr : ObjectType → String
  | .INTEGER => "INTEGER" | .BOOLEAN => "BOOLEAN" | .NULL => "NULL"
  | .ERROR => "ERROR" | .RETURN_VALUE => "RETURN_VALUE"
  | .FUNCTION => "FUNCTION" | .IDENTIFIER => "IDENTIFIER"
  | .STRING => "STRING"

inductive Object where
  | integer (value : Int)
  | boolean (value : Bool)
  | stringObj (value : String)
  | null
  | error (message : String)
  | returnValue (value : Object)
  | function (parameters : List Ident) (body : Stmt) (env : Nat)
  deriving Repr

def objectType : Object → ObjectType
  | .integer _ => .INTEGER
  | .boolean _ => .BOOLEAN
  | .stringObj _ => .STRING
  | .null => .NULL
  | .error _ => .ERROR
  | .returnValue _ => .RETURN_VALUE
  | .function _ _ _ => .FUNCTION

/-- `Object::inspect` (the `Function` case pushes `", "` after every
parameter, as the source loop does). -/
def inspect : Object → String
  | .integer v => toString v
  | .boolean v => toString v
  | .stringObj v => v
  | .null => "null"
  | .error m => m
  | .returnValue v => inspect v
  | .function params body _ =>
    "fn(" ++ String.join (params.map (fun p => p.value ++ ", ")) ++
      ") \x7b\n" ++ stmtToString body ++ "\n\x7d"

/-- Kind tag together with the inspected rendering: a decidable
observation that still separates `Integer 5` from `ReturnValue(Integer 5)`. -/
def observe (o : Object) : ObjectType × String := (objectType o, inspect o)

/-- A scope is a `HashMap<String, Rc<dyn Object>>`; as only `get` and
`insert` are used, an association list with in-place-replacing insert is
an exact model. -/
abbrev Scope := List (String × Object)

def scopeGet (s : Scope) (name : String) : Option Object :=
  match s with
  | [] => none
  | (k, v) :: rest => if k = name then some v else scopeGet rest name

def scopeInsert (s : Scope) (name : String) (v : Object) : Scope :=
  match s with
  | [] => [(name, v)]
  | (k, w) :: rest =>
    if k = name then (name, v) :: rest else (k, w) :: scopeInsert rest name v

structure Environment where
  outer : Option Nat
  scope : Scope
  deriving Repr

def Environment.new : Environment := ⟨none, []⟩

/-- `Environment::get` consults only the current map (it never follows
`outer`), exactly as in the source. -/
def Environment.get (e : Environment) (name : String) : Option Object :=
  scopeGet e.scope name

abbrev Heap := List Environment

def heapGet (h : Heap) (r : Nat) : Environment := h.getD r Environment.new

/-- `Environment::new_enclosed`: allocate a fresh environment whose scope
is a *copy* of the outer scope's map (`outer` stays `None`, as in
`Environment::new`). Returns the new `Rc` (heap index) and the heap. -/
def newEnclosed (outer : Nat) (h : Heap) : Nat × Heap :=
  (h.length, h ++ [⟨none, (heapGet h outer).scope⟩])

/-- `env.borrow_mut().set(name, value)`. -/
def envSet (h : Heap) (r : Nat) (name : String) (v : Object) : Heap :=
  h.set r { heapGet h r with scope := scopeInsert (heapGet h r).scope name v }

/-- `env.borrow().get(name)`. -/
def envGet (h : Heap) (r : Nat) (name : String) : Option Object :=
  (heapGet h r).get name

/-! ### Evaluator (src/evaluator/src/lib.rs) -/

/-- Outcome of an evaluation step: a value with the updated heap, a Rust
panic, or exhaustion of the embedding's fuel. -/
inductive ERes (α : Type) where
  | ok (a : α) (h : Heap)
  | panic
  | fuelOut
  deriving Repr

def evaluateBangOperatorExpression (right : Object) : Object :=
  match objectType right with
  | .BOOLEAN => match right with
    | .boolean true => .boolean false
    | _ => .boolean true
  | .NULL => .boolean true
  | _ => .boolean false

def evaluateMinusPrefixOperatorExpression (right : Object) : Object :=
  match right with
  | .integer v => .integer (-v)
  | _ => .error ("unknown operator: -" ++ otStr (objectType right))

def evaluatePrefixExpression (operator : String) (right : Object) : Object :=
  if operator = "!" then evaluateBangOperatorExpression right
  else if operator = "-" then evaluateMinusPrefixOperatorExpression right
  else .null

/-- Integer arithmetic; division or remainder by zero panics in Rust
(`i64` `/`/`%`), hence the `Option` (`none` = panic).  `i64` `/` and `%`
truncate toward zero, i.e. `Int.tdiv`/`Int.tmod`. -/
def evaluateIntegerInfixExpression (operator : String) (lv rv : Int) :
    Option Object :=
  if operator = "+" then some (.integer (lv + rv))
  else if operator = "-" then some (.integer (lv - rv))
  else if operator = "*" then some (.integer (lv * rv))
  else if operator = "/" then
    if rv = 0 then none else some (.integer (Int.tdiv lv rv))
  else if operator = "<" then some (.boolean (decide (lv < rv)))
  else if operator = ">" then some (.boolean (decide (lv > rv)))
  else if operator = "==" then some (.boolean (decide (lv = rv)))
  else if operator = "!=" then some (.boolean (decide (lv ≠ rv)))
  else if operator = "%" then
    if rv = 0 then none else some (.integer (Int.tmod lv rv))
  else some (.error ("unknown operator: INTEGER " ++ operator ++ " INTEGER"))

def evaluateBooleanInfixExpression (operator : String) (lv rv : Bool) : Object :=
  if operator = "==" then .boolean (lv == rv)
  else if operator = "!=" then .boolean (lv != rv)
  else .error ("unknown operator: BOOLEAN " ++ operator ++ " BOOLEAN")

def evaluateInfixExpression (operator : String) (left right : Object) :
    Option Object :=
  if objectType left = .STRING ∧ objectType right = .STRING ∧ operator = "+" then
    match left, right with
    | .stringObj l, .stringObj r => some (.stringObj (l ++ r))
    | _, _ => none
  else if objectType left = .INTEGER ∧ objectType right = .INTEGER then
    match left, right with
    | .integer l, .integer r => evaluateIntegerInfixExpression operator l r
    | _, _ => none
  else if objectType left = .BOOLEAN ∧ objectType right = .BOOLEAN then
    match left, right with
    | .boolean l, .boolean r => some (evaluateBooleanInfixExpression operator l r)
    | _, _ => none
  else if objectType left ≠ objectType right then
    some (.error ("type mismatch: " ++ otStr (objectType left) ++ " " ++
      operator ++ " " ++ otStr (objectType right)))
  else
    some (.error ("unknown operator: " ++ otStr (objectType left) ++ " " ++
      operator ++ " " ++ otStr (objectType right)))

def isTruthy (obj : Object) : Bool :=
  match objectType obj with
  | .NULL => false
  | .BOOLEAN => match obj with
    | .boolean b => b
    | _ => true
  | _ => true

def unwrapReturnValue (obj : Object) : Object :=
  match obj with
  | .returnValue v => v
  | _ => obj

/-- The parameter-binding loop of `extend_function_env`: `args[i]` panics
(`none`) when `i` is out of bounds. -/
def bindParams (params : List Ident) (args : List Object) (i : Nat)
    (r : Nat) (h : Heap) : Option Heap :=
  match params with
  | [] => some h
  | param :: rest =>
    match args.get? i with
    | none => none
    | some a => bindParams rest args (i + 1) r (envSet h r param.value a)

def extendFunctionEnv (params : List Ident) (funcEnv : Nat)
    (args : List Object) (h : Heap) : Option (Nat × Heap) :=
  let (r, h) := newEnclosed funcEnv h
  match bindParams params args 0 r h with
  | none => none
  | some h => some (r, h)

mutual

def evaluateStatement (fuel : Nat) (statement : Stmt) (env : Nat) (h : Heap) :
    ERes Object :=
  match fuel with
  | 0 => .fuelOut
  | fuel + 1 =>
    match statement with
    | .exprStmt _ expression =>
      match expression with
      | none => .panic
      | some e => evaluateExpression fuel e env h
    | .letStmt _ name value =>
      match value with
      | none => .panic
      | some e =>
        match evaluateExpression fuel e env h with
        | .panic => .panic
        | .fuelOut => .fuelOut
        | .ok v h =>
          if objectType v = .ERROR then .ok v h
          else .ok .null (envSet h env name.value v)
    | .returnStmt _ returnValue =>
      match returnValue with
      | none => .panic
      | some e =>
        match evaluateExpression fuel e env h with
        | .panic => .panic
        | .fuelOut => .fuelOut
        | .ok v h =>
          if objectType v = .ERROR then .ok v h
          else .ok (.returnValue v) h
    | .blockStmt _ _ =>
      let (blockEnv, h) := newEnclosed env h
      evaluateBlockStatement fuel statement blockEnv h
termination_by structural fuel

def evaluateExpression (fuel : Nat) (exp : Expr) (env : Nat) (h : Heap) :
    ERes Object :=
  match fuel with
  | 0 => .fuelOut
  | fuel + 1 =>
    match exp with
    | .identifier _ value =>
      match envGet h env value with
      | some obj => .ok obj h
      | none => .ok (.error ("identifier not found: " ++ value)) h
    | .integerLiteral _ value => .ok (.integer value) h
    | .stringLiteral _ value => .ok (.stringObj value) h
    | .boolean _ value =>
      if value then .ok (.boolean true) h else .ok (.boolean false) h
    | .prefixExpr _ operator right =>
      match evaluateExpression fuel right env h with
      | .panic => .panic
      | .fuelOut => .fuelOut
      | .ok r h =>
        if objectType r = .ERROR then .ok r h
        else .ok (evaluatePrefixExpression operator r) h
    | .infixExpr _ left operator right =>
      match evaluateExpression fuel left env h with
      | .panic => .panic
      | .fuelOut => .fuelOut
      | .ok l h =>
        if objectType l = .ERROR then .ok l h
        else
          match evaluateExpression fuel right env h with
          | .panic => .panic
          | .fuelOut => .fuelOut
          | .ok r h =>
            if objectType r = .ERROR then .ok r h
            else
              match evaluateInfixExpression operator l r with
              | none => .panic
              | some v => .ok v h
    | .ifExpr _ condition consequence alternative =>
      match evaluateExpression fuel condition env h with
      | .panic => .panic
      | .fuelOut => .fuelOut
      | .ok c h =>
        if objectType c = .ERROR then .ok c h
        else if isTruthy c then evaluateBlockStatement fuel consequence env h
        else
          match alternative with
          | some alt => evaluateBlockStatement fuel alt env h
          | none => .ok .null h
    | .functionLiteral _ parameters body =>
      .ok (.function parameters body env) h
    | .callExpr _ function arguments =>
      match evaluateExpression fuel function env h with
      | .panic => .panic
      | .fuelOut => .fuelOut
      | .ok f h =>
        if objectType f = .ERROR then .ok f h
        else
          match evaluateExpressions fuel arguments env h with
          | .panic => .panic
          | .fuelOut => .fuelOut
          | .ok args h =>
            if args.length = 1 ∧ objectType (args.getD 0 .null) = .ERROR then
              .ok (args.getD 0 .null) h
            else applyFunction fuel f args h
termination_by structural fuel

/-- `evaluate_block_statement` downcasts its argument to `BlockStatement`
(panic on any other node), unwraps the *first* statement (panic on an
empty block), evaluates it once, and then re-evaluates every statement —
including the first — in the loop. -/
def evaluateBlockStatement (fuel : Nat) (stmt : Stmt) (env : Nat) (h : Heap) :
    ERes Object :=
  match fuel with
  | 0 => .fuelOut
  | fuel + 1 =>
    match stmt with
    | .blockStmt _ statements =>
      match statements.head? with
      | none => .panic
      | some first =>
        match evaluateStatement fuel first env h with
        | .panic => .panic
        | .fuelOut => .fuelOut
        | .ok result h => evaluateBlockGo fuel statements result env h
    | _ => .panic
termination_by structural fuel

def evaluateBlockGo (fuel : Nat) (statements : List Stmt) (result : Object)
    (env : Nat) (h : Heap) : ERes Object :=
  match fuel with
  | 0 => .fuelOut
  | fuel + 1 =>
    match statements with
    | [] => .ok result h
    | s :: rest =>
      match evaluateStatement fuel s env h with
      | .panic => .panic
      | .fuelOut => .fuelOut
      | .ok evaluated h =>
        match objectType evaluated with
        | .RETURN_VALUE => .ok evaluated h
        | .ERROR => .ok evaluated h
        | _ => evaluateBlockGo fuel rest evaluated env h
termination_by structural fuel

def applyFunction (fuel : Nat) (func : Object) (args : List Object) (h : Heap) :
    ERes Object :=
  match fuel with
  | 0 => .fuelOut
  | fuel + 1 =>
    match func with
    | .function parameters body fenv =>
      match extendFunctionEnv parameters fenv args h with
      | none => .panic
      | some (extendedEnv, h) =>
        match evaluateStatement fuel body extendedEnv h with
        | .panic => .panic
        | .fuelOut => .fuelOut
        | .ok evaluated h => .ok (unwrapReturnValue evaluated) h
    | _ => .ok (.error ("not a function: " ++ otStr (objectType func))) h
termination_by structural fuel

def evaluateExpressions (fuel : Nat) (exps : List Expr) (env : Nat) (h : Heap) :
    ERes (List Object) :=
  match fuel with
  | 0 => .fuelOut
  | fuel + 1 =>
    match exps with
    | [] => .ok [] h
    | e :: rest =>
      match evaluateExpression fuel e env h with
      | .panic => .panic
      | .fuelOut => .fuelOut
      | .ok v h =>
        if objectType v = .ERROR then .ok [v] h
        else
          match evaluateExpressions fuel rest env h with
          | .panic => .panic
          | .fuelOut => .fuelOut
          | .ok vs h => .ok (v :: vs) h
termination_by structural fuel

end

def evaluateProgramGo (fuel : Nat) (statements : List Stmt)
    (result : Option Object) (env : Nat) (h : Heap) : ERes (Option Object) :=
  match fuel with
  | 0 => .fuelOut
  | fuel + 1 =>
    match statements with
    | [] => .ok result h
    | s :: rest =>
      match evaluateStatement fuel s env h with
      | .panic => .panic
      | .fuelOut => .fuelOut
      | .ok evaluated h =>
        match objectType evaluated with
        | .RETURN_VALUE =>
          match evaluated with
          | .returnValue v => .ok (some v) h
          | _ => .panic
        | .ERROR =>
          match evaluated with
          | .error m => .ok (some (.error m)) h
          | _ => .panic
        | _ => evaluateProgramGo fuel rest (some evaluated) env h

def evaluateProgram (fuel : Nat) (program : Program) (env : Nat) (h : Heap) :
    ERes (Option Object) :=
  evaluateProgramGo fuel program.statements none env h

/-! ### End-to-end pipeline and result projections -/

/-- Forget the final heap / parser state, keeping only the outcome. -/
inductive Outcome (α : Type) where
  | ok (a : α)
  | panic
  | fuelOut
  deriving DecidableEq, Repr

def Outcome.map (f : α → β) : Outcome α → Outcome β
  | .ok a => .ok (f a)
  | .panic => .panic
  | .fuelOut => .fuelOut

def ERes.toVal : ERes α → Outcome α
  | .ok a _ => .ok a
  | .panic => .panic
  | .fuelOut => .fuelOut

def PRes.toVal : PRes α → Outcome α
  | .ok a _ => .ok a
  | .panic => .panic
  | .fuelOut => .fuelOut

/-- Lex, parse and evaluate a source string in a fresh root environment
(as the REPL does). -/
def runSource (fuel : Nat) (src : String) : ERes (Option Object) :=
  match parseSource fuel src with
  | .ok prog _ => evaluateProgram fuel prog 0 [Environment.new]
  | .panic => .panic
  | .fuelOut => .fuelOut

/-- Decidable observation of an end-to-end run: kind tag and inspected
rendering of the final value. -/
def runObs (fuel : Nat) (src : String) : Outcome (Option (ObjectType × String)) :=
  (runSource fuel src).toVal.map (Option.map observe)

/-- Decidable observation of an evaluator result. -/
def eObs (r : ERes Object) : Outcome (ObjectType × String) :=
  r.toVal.map observe

/-- Decidable observation of a parse: the `to_string` rendering of the
returned `Program` together with the parser's error list. -/
def parseObs (fuel : Nat) (src : String) : Outcome (String × List String) :=
  match parseSource fuel src with
  | .ok prog p => .ok (programToString prog, p.errors)
  | .panic => .panic
  | .fuelOut => .fuelOut

/-- A placeholder token for hand-written AST values whose token fields the
evaluator never reads. -/
def dtok : Token := ⟨.ILLEGAL, ""⟩

/-- The body `{ return if (true) { return 5; }; }`: a `return` whose
expression is an if-expression that itself returns, so the returned
expression evaluates to a `ReturnValue` sentinel. -/
def nestedReturnBody : Stmt :=
  .blockStmt dtok [.returnStmt dtok (some (.ifExpr dtok (.boolean dtok true)
    (.blockStmt dtok [.returnStmt dtok (some (.integerLiteral dtok 5))])
    none))]

/-! ### Supporting lemmas -/

/-- When no closing quote occurs at or after the read position, the
`while self.ch != '"'` loop of `read_string` never exits (past the end of
the input, `ch` is the NUL character forever): it returns `none` for
every fuel. -/
theorem readStringGo_noQuote (fuel : Nat) (acc : List Char) (l : Lexer)
    (hch : l.ch ≠ '"')
    (hin : ∀ i, l.readPosition ≤ i → i < l.input.length →
      l.input.getD i '\x00' ≠ '"') :
    Lexer.readStringGo fuel acc l = none := by
  induction fuel generalizing acc l with
  | zero => rfl
  | succ n ih =>
    unfold Lexer.readStringGo
    rw [if_neg hch]
    apply ih
    · show (Lexer.readChar l).ch ≠ '"'
      unfold Lexer.readChar
      by_cases hrp : l.readPosition ≥ l.input.length
      · rw [if_pos hrp]; simp
      · rw [if_neg hrp]
        exact hin l.readPosition le_rfl (by omega)
    · intro i h1 h2
      refine hin i ?_ ?_
      · have : (Lexer.readChar l).readPosition = l.readPosition + 1 := rfl
        omega
      · exact h2

theorem evalInfix_mismatch (op : String) (l r : Object)
    (h : objectType l ≠ objectType r) :
    evaluateInfixExpression op l r = some (.error ("type mismatch: " ++
      otStr (objectType l) ++ " " ++ op ++ " " ++ otStr (objectType r))) := by
  have h1 : ¬(objectType l = .STRING ∧ objectType r = .STRING ∧ op = "+") :=
    fun ⟨a, b, _⟩ => h (a.trans b.symm)
  have h2 : ¬(objectType l = .INTEGER ∧ objectType r = .INTEGER) :=
    fun ⟨a, b⟩ => h (a.trans b.symm)
  have h3 : ¬(objectType l = .BOOLEAN ∧ objectType r = .BOOLEAN) :=
    fun ⟨a, b⟩ => h (a.trans b.symm)
  unfold evaluateInfixExpression
  rw [if_neg h1, if_neg h2, if_neg h3, if_pos h]

theorem evalExpr_infix_mismatch (f : Nat) (t : Token) (e1 e2 : Expr)
    (op : String) (env : Nat) (h h1 h2 : Heap) (l r : Object)
    (hl : evaluateExpression f e1 env h = .ok l h1)
    (hlE : objectType l ≠ .ERROR)
    (hr : evaluateExpression f e2 env h1 = .ok r h2)
    (hrE : objectType r ≠ .ERROR)
    (hne : objectType l ≠ objectType r) :
    evaluateExpression (f + 1) (.infixExpr t e1 op e2) env h =
      .ok (.error ("type mismatch: " ++ otStr (objectType l) ++ " " ++ op ++
        " " ++ otStr (objectType r))) h2 := by
  simp only [evaluateExpression]
  simp [hl, hr, hlE, hrE, evalInfix_mismatch op l r hne]

theorem bangTest : ∀ (v : Object), objectType v ≠ .ERROR →
    evaluatePrefixExpression "!" v = .boolean (!isTruthy v) := by
  intro v hv
  cases v <;> try rfl
  rename_i b
  cases b <;> rfl

theorem scopeGet_insert_same (s : Scope) (k : String) (v : Object) :
    scopeGet (scopeInsert s k v) k = some v := by
  induction s with
  | nil => simp [scopeInsert, scopeGet]
  | cons kv rest ih =>
    by_cases hk : kv.1 = k
    · simp [scopeInsert, hk, scopeGet]
    · simp [scopeInsert, hk, scopeGet, ih]

theorem scopeGet_insert_other (s : Scope) (k k' : String) (v : Object)
    (hne : k' ≠ k) :
    scopeGet (scopeInsert s k v) k' = scopeGet s k' := by
  induction s with
  | nil => simp [scopeInsert, scopeGet, hne, Ne.symm hne]
  | cons kv rest ih =>
    by_cases hk : kv.1 = k
    · subst hk
      simp [scopeInsert, scopeGet, Ne.symm hne]
    · by_cases hk' : kv.1 = k'
      · rw [show scopeInsert (kv :: rest) k v = (kv.1, kv.2) :: scopeInsert rest k v by
          simp [scopeInsert, hk]]
        simp [scopeGet, hk']
      · rw [show scopeInsert (kv :: rest) k v = (kv.1, kv.2) :: scopeInsert rest k v by
          simp [scopeInsert, hk]]
        simp [scopeGet, hk', ih]

theorem envSet_length (h : Heap) (r : Nat) (k : String) (v : Object) :
    (envSet h r k v).length = h.length := by
  simp [envSet]

theorem heapGet_set_same (h : Heap) (r : Nat) (e : Environment)
    (hr : r < h.length) : heapGet (h.set r e) r = e := by
  simp [heapGet, List.getD, List.getElem?_set_self, hr]

theorem envGet_set_same (h : Heap) (r : Nat) (k : String) (v : Object)
    (hr : r < h.length) :
    envGet (envSet h r k v) r k = some v := by
  have hlen : r < (envSet h r k v).length := by rw [envSet_length]; exact hr
  unfold envGet envSet at hlen ⊢
  rw [heapGet_set_same _ _ _ hr]
  simp [Environment.get, scopeGet_insert_same]

theorem envGet_set_other (h : Heap) (r : Nat) (k k' : String) (v : Object)
    (hne : k' ≠ k) :
    envGet (envSet h r k v) r k' = envGet h r k' := by
  by_cases hr : r < h.length
  · unfold envGet envSet
    rw [heapGet_set_same _ _ _ hr]
    simp [Environment.get, scopeGet_insert_other _ _ _ _ hne]
  · have hset : h.set r ({ heapGet h r with
        scope := scopeInsert (heapGet h r).scope k v }) = h :=
      List.set_eq_of_length_le (by omega)
    unfold envGet envSet
    rw [hset]



theorem heapGet_concat (h : Heap) (e : Environment) :
    heapGet (h ++ [e]) h.length = e := by
  simp [heapGet, List.getD, List.getElem?_concat_length]

theorem bindParams_some (params : List Ident) (args : List Object) :
    ∀ (i r : Nat) (h : Heap), i + params.length ≤ args.length →
    ∃ h', bindParams params args i r h = some h' := by
  induction params with
  | nil => intro i r h _; exact ⟨h, rfl⟩
  | cons p rest ih =>
    intro i r h hlen
    simp only [List.length_cons] at hlen
    cases hargs : args.get? i with
    | none =>
      have := List.get?_eq_none.mp hargs
      omega
    | some a =>
      obtain ⟨h', hbp⟩ := ih (i + 1) r (envSet h r p.value a) (by omega)
      refine ⟨h', ?_⟩
      unfold bindParams
      simp only [hargs]
      exact hbp

theorem bindParams_none (params : List Ident) (args : List Object) :
    ∀ (i r : Nat) (h : Heap), args.length < i + params.length →
    i ≤ args.length → bindParams params args i r h = none := by
  induction params with
  | nil =>
    intro i r h hlt hle
    simp only [List.length_nil, Nat.add_zero] at hlt
    exfalso
    omega
  | cons p rest ih =>
    intro i r h hlt hle
    by_cases hi : i < args.length
    · cases hargs : args.get? i with
      | none =>
        have := List.get?_eq_none.mp hargs
        omega
      | some a =>
        unfold bindParams
        simp only [hargs]
        refine ih (i + 1) r (envSet h r p.value a) ?_ (by omega)
        simp only [List.length_cons] at hlt
        omega
    · have hargs : args.get? i = none := List.get?_eq_none.mpr (by omega)
      unfold bindParams
      simp only [hargs]

theorem bindParams_preserve (params : List Ident) (args : List Object) :
    ∀ (i r : Nat) (h h' : Heap) (name : String),
    name ∉ params.map Ident.value →
    bindParams params args i r h = some h' →
    envGet h' r name = envGet h r name := by
  induction params with
  | nil =>
    intro i r h h' name _ hbp
    unfold bindParams at hbp
    cases hbp
    rfl
  | cons p rest ih =>
    intro i r h h' name hmem hbp
    unfold bindParams at hbp
    cases hargs : args.get? i with
    | none => simp only [hargs] at hbp; cases hbp
    | some a =>
      simp only [hargs] at hbp
      simp only [List.map_cons, List.mem_cons, not_or] at hmem
      rw [ih (i + 1) r _ h' name hmem.2 hbp,
        envGet_set_other _ _ _ _ _ hmem.1]

theorem bindParams_length (params : List Ident) (args : List Object) :
    ∀ (i r : Nat) (h h' : Heap),
    bindParams params args i r h = some h' → h'.length = h.length := by
  induction params with
  | nil =>
    intro i r h h' hbp
    unfold bindParams at hbp
    cases hbp
    rfl
  | cons p rest ih =>
    intro i r h h' hbp
    unfold bindParams at hbp
    cases hargs : args.get? i with
    | none => simp only [hargs] at hbp; cases hbp
    | some a =>
      simp only [hargs] at hbp
      rw [ih (i + 1) r _ h' hbp, envSet_length]

theorem bindParams_get (params : List Ident) (args : List Object) :
    ∀ (i r : Nat) (h h' : Heap),
    (params.map Ident.value).Nodup → r < h.length →
    bindParams params args i r h = some h' →
    ∀ j (hj : j < params.length),
      envGet h' r ((params.get ⟨j, hj⟩).value) = args.get? (i + j) := by
  induction params with
  | nil => intro i r h h' _ _ _ j hj; exact absurd hj (by simp)
  | cons p rest ih =>
    intro i r h h' hnd hr hbp j hj
    unfold bindParams at hbp
    cases hargs : args.get? i with
    | none => simp only [hargs] at hbp; cases hbp
    | some a =>
      simp only [hargs] at hbp
      simp only [List.map_cons, List.nodup_cons] at hnd
      cases j with
      | zero =>
        show envGet h' r p.value = args.get? (i + 0)
        rw [Nat.add_zero, hargs]
        rw [bindParams_preserve rest args _ _ _ _ _ hnd.1 hbp]
        exact envGet_set_same h r p.value a hr
      | succ j =>
        have := ih (i + 1) r (envSet h r p.value a) h' hnd.2
          (by rw [envSet_length]; exact hr) hbp j
          (by simpa using Nat.lt_of_succ_lt_succ hj)
        have heq : i + 1 + j = i + (j + 1) := by omega
        rw [heq] at this
        simpa [List.get] using this

theorem applyFunction_eq_unwrap (f : Nat) (params : List Ident) (body : Stmt)
    (fenv : Nat) (args : List Object) (h : Heap) (r : Nat) (h' h'' : Heap)
    (w : Object)
    (hext : extendFunctionEnv params fenv args h = some (r, h'))
    (hbody : evaluateStatement f body r h' = .ok w h'') :
    applyFunction (f + 1) (.function params body fenv) args h =
      .ok (unwrapReturnValue w) h'' := by
  unfold applyFunction
  simp only [hext, hbody]

/-! ### Claims -/

/-- C1: the claim prescribes single-pass block semantics (each statement
of a `BlockStatement` evaluated exactly once, in a fresh child
environment).  The code's `evaluate_block_statement` instead evaluates
the first statement once before the loop and again as the first loop
iteration, which the spec itself flags as a bug.  Observable divergence:
in `let x = 1; { let x = x + 1; x }` the inner `let` runs twice in the
block's environment, so the program evaluates to Integer 3, where the
claimed exactly-once semantics gives 2. -/
theorem block_double_eval_observable :
    runObs 50 "let x = 1; { let x = x + 1; x }" =
      .ok (some (.INTEGER, "3")) := by decide!

/-- C2: the claim says identifier lookup walks the environment chain, so
a binding inserted into an outer environment after a child was created is
visible from the child.  In the code `Environment::new_enclosed` copies
the outer scope's map (its `outer` field stays `None`) and
`Environment::get` never consults `outer`, so the later outer binding is
invisible and the child lookup yields the identifier-not-found error. -/
theorem enclosed_env_misses_outer_binding :
    (newEnclosed 0 [Environment.new]).1 = 1 ∧
    Option.map observe
      (envGet (envSet (newEnclosed 0 [Environment.new]).2 0 "a" (.integer 3))
        1 "a") = none ∧
    eObs (evaluateExpression 9 (.identifier dtok "a") 1
        (envSet (newEnclosed 0 [Environment.new]).2 0 "a" (.integer 3))) =
      .ok (.ERROR, "identifier not found: a") := by decide!

/-- C3: the claim (and spec) say `parse_program` always returns a
`Program`, recording every syntax error.  On `let x = !;` the prefix
handler for `!` parses its operand, gets `None` back (a no-prefix-parse-fn
error is recorded for `;`), and then `unwrap`s that `None`: the parser
panics instead of returning a `Program`.  On `let x;` (no unwrap on that
path) the parser is indeed fail-soft and records two errors. -/
theorem parse_program_panics_on_missing_operand :
    parseObs 50 "let x = !;" = .panic ∧
    parseObs 50 "let x;" =
      .ok ("", ["expected next token to be ASSIGN, got SEMICOLON instead",
        "no prefix parse function for SEMICOLON found"]) := by decide!

/-- C4: the claim says `next_token` terminates on every finite input and
turns an unterminated string literal into an ILLEGAL token.  In the code
`read_string` loops `while self.ch != '"'` with no end-of-input check;
past the end `ch` is NUL forever, so on the input `"ab` (no closing
quote) `next_token` fails to return for every fuel bound: the loop never
terminates. -/
theorem next_token_diverges_on_unterminated_string :
    ∀ (fuel : Nat), Lexer.nextToken fuel (Lexer.new "\"ab") = none := by
  intro fuel
  match fuel with
  | 0 => rfl
  | f + 1 =>
    have hL : Lexer.new "\"ab" = ⟨['"', 'a', 'b'], 0, 1, '"'⟩ := by decide!
    rw [hL]
    have hgo : Lexer.readStringGo (f + 1) []
        (Lexer.readChar ⟨['"', 'a', 'b'], 0, 1, '"'⟩) = none := by
      apply readStringGo_noQuote
      · decide
      · intro i h1 h2
        simp [Lexer.readChar] at h1 h2
        have : i = 2 := by omega
        subst this
        decide
    simp [Lexer.nextToken, Lexer.skipWhitespace, Lexer.readString, hgo]

/-- C5 counterexample: calling a function whose body is
`{ return if (true) { return 5; }; }` does yield a `ReturnValue` wrapper:
the returned expression evaluates to `ReturnValue(5)`, the return
statement wraps it once more, and `apply_function` unwraps only one
layer, so the call's value has kind RETURN_VALUE — observable end to end
as the error `type mismatch: RETURN_VALUE + INTEGER` when the call result
is used as an operand.  This refutes the claim's "never a ReturnValue
wrapper". -/
theorem call_result_can_be_return_wrapper :
    eObs (applyFunction 20 (.function [] nestedReturnBody 0) []
      [Environment.new]) = .ok (.RETURN_VALUE, "5") ∧
    runObs 90 "let f = fn() { return if (true) { return 5; }; }; f() + 1;" =
      .ok (some (.ERROR, "type mismatch: RETURN_VALUE + INTEGER")) := by
  decide!

/-- C5 (amended): a call unwraps exactly one `ReturnValue` layer from its
body's result — if the body evaluates to `ReturnValue(w)` the call yields
`w` itself, so for an ordinary `return E;` body (where the value of `E`
is not itself a ReturnValue) the call yields the evaluated value of `E`
with no wrapper; in particular
`let add = fn(x, y) { return x + y; }; add(2, 3);` evaluates to
Integer 5. -/
theorem call_unwraps_one_return_layer :
    runObs 50 "let add = fn(x, y) { return x + y; }; add(2, 3);" =
      .ok (some (.INTEGER, "5")) ∧
    (∀ (f : Nat) (params : List Ident) (body : Stmt) (fenv : Nat)
      (args : List Object) (h : Heap) (r : Nat) (h' h'' : Heap) (w : Object),
      extendFunctionEnv params fenv args h = some (r, h') →
      evaluateStatement f body r h' = .ok (.returnValue w) h'' →
      applyFunction (f + 1) (.function params body fenv) args h =
        .ok w h'') := by
  refine ⟨by decide!, ?_⟩
  intro f params body fenv args h r h' h'' w hext hbody
  exact applyFunction_eq_unwrap f params body fenv args h r h' h'' _ hext hbody

/-- C5 witness: the one-layer-unwrap theorem applied to the concrete call
of `fn() { return 5; }` with no arguments. -/
theorem call_unwraps_one_return_layer_witness :
    applyFunction 10
      (.function [] (.blockStmt dtok
        [.returnStmt dtok (some (.integerLiteral dtok 5))]) 0)
      [] [Environment.new] =
      .ok (.integer 5) [Environment.new, ⟨none, []⟩, ⟨none, []⟩] :=
  call_unwraps_one_return_layer.2 9 []
    (.blockStmt dtok [.returnStmt dtok (some (.integerLiteral dtok 5))])
    0 [] [Environment.new] 1 [Environment.new, ⟨none, []⟩]
    [Environment.new, ⟨none, []⟩, ⟨none, []⟩] (.integer 5) rfl rfl

/-- C6 counterexample: the round-trip property fails.  `if (x) {y}`
parses without errors and renders as `ifx {y}` (`IfExpression::to_string`
puts nothing between `if` and the condition, and a non-infix condition
carries no parentheses of its own); re-parsing that rendering lexes `ifx`
as a single identifier, and the re-parsed AST renders as `ifx{y}`, which
differs from the first rendering. -/
theorem to_string_round_trip_fails_for_if :
    parseObs 60 "if (x) {y}" = .ok ("ifx {y}", []) ∧
    parseObs 60 "ifx {y}" = .ok ("ifx{y}", []) ∧
    ("ifx {y}" : String) ≠ "ifx{y}" := by decide!

/-- C6 (amended): every infix expression prints fully parenthesized as
`(left op right)`, reflecting precedence and left-associativity as built
by the parser: `5 * 2 - 3 / 3` parses without errors and prints as
`((5 * 2) - (3 / 3))`, and re-parsing that printed form yields an AST
whose rendering is identical (the round trip holds for this printed
form, though not for every source — see the counterexample). -/
theorem infix_printing_parenthesized_round_trip :
    (∀ (t : Token) (l : Expr) (op : String) (r : Expr),
      exprToString (.infixExpr t l op r) =
        "(" ++ exprToString l ++ " " ++ op ++ " " ++ exprToString r ++ ")") ∧
    parseObs 60 "5 * 2 - 3 / 3" = .ok ("((5 * 2) - (3 / 3))", []) ∧
    parseObs 60 "((5 * 2) - (3 / 3))" = .ok ("((5 * 2) - (3 / 3))", []) :=
  ⟨fun _ _ _ _ => rfl, by decide!, by decide!⟩

/-- C7: an infix expression whose operands evaluate without error to
objects of different kinds yields
`type mismatch: LKIND op RKIND` (for any operator string and any such
operands), and concretely `5 + true;` evaluates to the error value
`type mismatch: INTEGER + BOOLEAN`. -/
theorem infix_type_mismatch_error :
    (∀ (f : Nat) (t : Token) (e1 e2 : Expr) (op : String) (env : Nat)
      (h h1 h2 : Heap) (l r : Object),
      evaluateExpression f e1 env h = .ok l h1 → objectType l ≠ .ERROR →
      evaluateExpression f e2 env h1 = .ok r h2 → objectType r ≠ .ERROR →
      objectType l ≠ objectType r →
      evaluateExpression (f + 1) (.infixExpr t e1 op e2) env h =
        .ok (.error ("type mismatch: " ++ otStr (objectType l) ++ " " ++ op ++
          " " ++ otStr (objectType r))) h2) ∧
    runObs 50 "5 + true;" =
      .ok (some (.ERROR, "type mismatch: INTEGER + BOOLEAN")) := by
  refine ⟨?_, by decide!⟩
  intro f t e1 e2 op env h h1 h2 l r hl hlE hr hrE hne
  exact evalExpr_infix_mismatch f t e1 e2 op env h h1 h2 l r hl hlE hr hrE hne

/-- C7 witness: the type-mismatch theorem applied to `5 + true`. -/
theorem infix_type_mismatch_error_witness :
    evaluateExpression 2
      (.infixExpr dtok (.integerLiteral dtok 5) "+" (.boolean dtok true))
      0 [Environment.new] =
      .ok (.error "type mismatch: INTEGER + BOOLEAN") [Environment.new] :=
  infix_type_mismatch_error.1 1 dtok (.integerLiteral dtok 5)
    (.boolean dtok true) "+" 0 [Environment.new] [Environment.new]
    [Environment.new] (.integer 5) (.boolean true) rfl (by decide) rfl
    (by decide) (by decide)

/-- C8: for every non-Error operand the prefix `!` produces the Boolean
negation of the operand's truthiness; exactly Null and Boolean false are
falsy while Integer 0 and the empty string are truthy; and `!!5`
evaluates to true, `!true` to false. -/
theorem bang_negates_truthiness :
    (∀ (v : Object), objectType v ≠ .ERROR →
      evaluatePrefixExpression "!" v = .boolean (!isTruthy v)) ∧
    isTruthy .null = false ∧ isTruthy (.boolean false) = false ∧
    isTruthy (.integer 0) = true ∧ isTruthy (.stringObj "") = true ∧
    runObs 50 "!!5" = .ok (some (.BOOLEAN, "true")) ∧
    runObs 50 "!true" = .ok (some (.BOOLEAN, "false")) := by
  refine ⟨?_, rfl, rfl, rfl, rfl, by decide!, by decide!⟩
  intro v hv
  cases v <;> try rfl
  rename_i b
  cases b <;> rfl

/-- C8 witness: the truthiness-negation theorem applied to Integer 5. -/
theorem bang_negates_truthiness_witness :
    objectType (.integer 5) ≠ .ERROR ∧
    evaluatePrefixExpression "!" (.integer 5) =
      .boolean (!isTruthy (.integer 5)) :=
  ⟨by decide, bang_negates_truthiness.1 (.integer 5) (by decide)⟩

/-- C9 counterexample: block evaluation is not total — on a
`BlockStatement` with zero statements, `evaluate_block_statement` calls
`first().unwrap()` on the empty statement list and panics, both when the
block AST is evaluated directly and for the source program `{}`. -/
theorem empty_block_evaluation_panics :
    eObs (evaluateStatement 9 (.blockStmt dtok []) 0 [Environment.new]) =
      .panic ∧
    runObs 50 "{}" = .panic := by decide!

/-- C9 (amended): evaluating a `BlockStatement` with zero statements
panics on the unguarded unwrap of the first statement, for every fuel,
environment and heap; a nonempty block evaluates normally, e.g. the
block `{ 1 }` yields Integer 1 (also via the source `{ 1 }`). -/
theorem block_evaluation_empty_vs_nonempty :
    (∀ (f : Nat) (t : Token) (env : Nat) (h : Heap),
      evaluateBlockStatement (f + 1) (.blockStmt t []) env h = .panic) ∧
    eObs (evaluateStatement 9 (.blockStmt dtok
      [.exprStmt dtok (some (.integerLiteral dtok 1))]) 0 [Environment.new]) =
      .ok (.INTEGER, "1") ∧
    runObs 50 "{ 1 }" = .ok (some (.INTEGER, "1")) :=
  ⟨fun _ _ _ _ => rfl, by decide!, by decide!⟩

/-- C10: `extend_function_env` builds one fresh environment from the
function's captured environment (`new_enclosed`) and binds parameter `i`
to argument `i` positionally.  With at least as many arguments as
parameters the construction succeeds and (for distinct parameter names)
each parameter looks up to its positional argument, while bindings of the
captured environment not shadowed by a parameter remain visible; with
fewer arguments than parameters the `args[i]` indexing is out of bounds
and the call panics — the case is not handled. -/
theorem extend_function_env_spec :
    (∀ (params : List Ident) (fenv : Nat) (args : List Object) (h : Heap),
      params.length ≤ args.length →
      ∃ r h', extendFunctionEnv params fenv args h = some (r, h')) ∧
    (∀ (params : List Ident) (fenv : Nat) (args : List Object) (h : Heap),
      args.length < params.length →
      extendFunctionEnv params fenv args h = none) ∧
    (∀ (f : Nat) (params : List Ident) (body : Stmt) (fenv : Nat)
      (args : List Object) (h : Heap), args.length < params.length →
      applyFunction (f + 1) (.function params body fenv) args h = .panic) ∧
    (∀ (params : List Ident) (fenv : Nat) (args : List Object) (h : Heap)
      (r : Nat) (h' : Heap),
      extendFunctionEnv params fenv args h = some (r, h') →
      (params.map Ident.value).Nodup →
      ∀ j (hj : j < params.length),
        envGet h' r ((params.get ⟨j, hj⟩).value) = args.get? j) ∧
    (∀ (params : List Ident) (fenv : Nat) (args : List Object) (h : Heap)
      (r : Nat) (h' : Heap) (name : String),
      extendFunctionEnv params fenv args h = some (r, h') →
      name ∉ params.map Ident.value →
      envGet h' r name = envGet h fenv name) := by
  have hnone : ∀ (params : List Ident) (fenv : Nat) (args : List Object)
      (h : Heap), args.length < params.length →
      extendFunctionEnv params fenv args h = none := by
    intro params fenv args h hlen
    unfold extendFunctionEnv newEnclosed
    simp only [bindParams_none params args 0 _ _ (by omega) (by omega)]
  have hdestruct : ∀ (params : List Ident) (fenv : Nat) (args : List Object)
      (h : Heap) (r : Nat) (h' : Heap),
      extendFunctionEnv params fenv args h = some (r, h') →
      r = h.length ∧
        bindParams params args 0 h.length
          (h ++ [⟨none, (heapGet h fenv).scope⟩]) = some h' := by
    intro params fenv args h r h' hext
    unfold extendFunctionEnv newEnclosed at hext
    cases hbp : bindParams params args 0 h.length
        (h ++ [⟨none, (heapGet h fenv).scope⟩]) with
    | none => simp only [hbp] at hext; cases hext
    | some h2 =>
      simp only [hbp] at hext
      cases hext
      exact ⟨rfl, rfl⟩
  refine ⟨?_, hnone, ?_, ?_, ?_⟩
  · intro params fenv args h hlen
    obtain ⟨h', hbp⟩ := bindParams_some params args 0 h.length
      (h ++ [⟨none, (heapGet h fenv).scope⟩]) (by omega)
    refine ⟨h.length, h', ?_⟩
    unfold extendFunctionEnv newEnclosed
    simp only [hbp]
  · intro f params body fenv args h hlen
    unfold applyFunction
    simp only [hnone params fenv args h hlen]
  · intro params fenv args h r h' hext hnd j hj
    obtain ⟨hr, hbp⟩ := hdestruct params fenv args h r h' hext
    subst hr
    have := bindParams_get params args 0 h.length _ h' hnd
      (by simp) hbp j hj
    simpa using this
  · intro params fenv args h r h' name hext hmem
    obtain ⟨hr, hbp⟩ := hdestruct params fenv args h r h' hext
    subst hr
    rw [bindParams_preserve params args 0 h.length _ h' name hmem hbp]
    show (heapGet (h ++ [⟨none, (heapGet h fenv).scope⟩]) h.length).get name
      = envGet h fenv name
    rw [heapGet_concat]
    rfl

/-- C10 witness: the binding theorem applied to a two-parameter function
called with two arguments (parameter `x` looks up to argument 0), and the
shortage theorem applied to the same parameters with a single argument
(the call panics). -/
theorem extend_function_env_spec_witness :
    envGet [Environment.new, ⟨none, [("x", Object.integer 1),
        ("y", Object.integer 2)]⟩] 1 "x" =
      [Object.integer 1, Object.integer 2].get? 0 ∧
    applyFunction 5
      (.function [⟨dtok, "x"⟩, ⟨dtok, "y"⟩] (.blockStmt dtok []) 0)
      [.integer 1] [Environment.new] = .panic := by
  constructor
  · exact extend_function_env_spec.2.2.2.1 [⟨dtok, "x"⟩, ⟨dtok, "y"⟩] 0
      [.integer 1, .integer 2] [Environment.new] 1
      [Environment.new, ⟨none, [("x", Object.integer 1),
        ("y", Object.integer 2)]⟩] rfl (by decide) 0 (by decide)
  · exact extend_function_env_spec.2.2.1 4 [⟨dtok, "x"⟩, ⟨dtok, "y"⟩]
      (.blockStmt dtok []) 0 [.integer 1] [Environment.new] (by decide)

end Monkey
